import Mathlib

/-!
# Verification of the MicroQuickJS WASM canvas bridge

A shallow embedding of the turn-based sandbox bridge implemented in
`dist/ide.js` and `dist/canvas-bridge.js`:

* the mocked in-sandbox environment (`console`, `canvas`,
  `requestAnimationFrame`, `setTimeout`, `onKeyDown`) that guest programs
  call, modelled by a deep embedding `GuestProg` of straight-line guest
  programs over the mocked API, interpreted by `runProg`;
* the turn envelope of `generateWrappedCode` (ide.js) and `wrapUserCode`
  (canvas-bridge.js), modelled by `runWrappedTurn` / `runWrappedTurnBridge`;
* the per-frame continuation turn of `runFrame` (ide.js), modelled by
  `runFrameTurn` with its live-array timer loop `timerLoop`;
* the host-side scheduler (`executeCode`, the rAF tick, `doReset`),
  modelled by `executeCode`, `hostTick` and the fuelled driver `driveTicks`;
* the command replay engine (`executeCanvasCommands` in ide.js,
  `executeCommands` in canvas-bridge.js — identical logic), modelled by
  `replayCommands` over a real-context state `Ctx`.

Machine values are modelled by `JSVal`; object values are modelled with
string-valued fields, which covers every object the bridge itself builds
(log records) while still being distinguishable from numbers and strings.
-/

deriving instance DecidableEq for Except

namespace MQJS

/-- A sandbox-side JavaScript value, as far as the bridge can observe it:
numbers, strings, booleans, `null`, `undefined`, and (string-field) objects. -/
inductive JSVal where
  | num (n : Int)
  | str (s : String)
  | boolean (b : Bool)
  | nullV
  | undef
  | obj (fields : List (String × String))
deriving DecidableEq

/-- JavaScript `String(v)` coercion, as used by the console mocks. -/
def jsString : JSVal → String
  | .num n => toString n
  | .str s => s
  | .boolean b => if b then "true" else "false"
  | .nullV => "null"
  | .undef => "undefined"
  | .obj _ => "[object Object]"

/-- `true` exactly for numbers and strings (the value kinds the spec's
command-argument invariant allows). -/
def isNumOrStr : JSVal → Bool
  | .num _ => true
  | .str _ => true
  | _ => false

/-- Console severity: which of `console.log` / `console.warn` /
`console.error` the guest called. -/
inductive LogLevel where
  | log
  | warn
  | error
deriving DecidableEq

/-- The wire tag of a severity in the `{type, msg}` record shape. -/
def LogLevel.tag : LogLevel → String
  | .log => "log"
  | .warn => "warn"
  | .error => "error"

/-- The arguments of one console call, stringified and joined with a single
space — `args.map(String).join(" ")` in both console mocks. -/
def joinArgs (args : List JSVal) : String :=
  String.intercalate " " (args.map jsString)

/-- `cmd` tags of the canvas command vocabulary. -/
inductive CmdKind where
  | fillRect
  | strokeRect
  | clearRect
  | fillText
  | strokeText
  | beginPath
  | closePath
  | moveTo
  | lineTo
  | arc
  | rect
  | fill
  | stroke
deriving DecidableEq

/-- One queued canvas command as pushed onto `__canvasCommands`: the tag,
the positional argument list, and the optional captured style snapshot
fields (`style`, `font`, `lw`), present exactly when the mock method
includes them. -/
structure CanvasCommand where
  cmd : CmdKind
  args : List JSVal := []
  style : Option String := none
  font : Option String := none
  lw : Option Int := none
deriving DecidableEq

/-- The style properties of the in-sandbox `canvas` mock object, with the
initial values from its literal. -/
structure MockCanvasState where
  fillStyle : String := "#000"
  strokeStyle : String := "#fff"
  font : String := "12px sans-serif"
  lineWidth : Int := 1
deriving DecidableEq

/-- A guest call to one drawing method of the `canvas` mock, with the
values the guest passed. -/
inductive CanvasMethod where
  | fillRect (x y w h : JSVal)
  | strokeRect (x y w h : JSVal)
  | clearRect (x y w h : JSVal)
  | fillText (t x y : JSVal)
  | strokeText (t x y : JSVal)
  | beginPath
  | closePath
  | moveTo (x y : JSVal)
  | lineTo (x y : JSVal)
  | arc (x y r s e : JSVal)
  | rect (x y w h : JSVal)
  | fill
  | stroke
deriving DecidableEq

/-- The positional argument list a drawing method receives. -/
def methodArgs : CanvasMethod → List JSVal
  | .fillRect x y w h => [x, y, w, h]
  | .strokeRect x y w h => [x, y, w, h]
  | .clearRect x y w h => [x, y, w, h]
  | .fillText t x y => [t, x, y]
  | .strokeText t x y => [t, x, y]
  | .beginPath => []
  | .closePath => []
  | .moveTo x y => [x, y]
  | .lineTo x y => [x, y]
  | .arc x y r s e => [x, y, r, s, e]
  | .rect x y w h => [x, y, w, h]
  | .fill => []
  | .stroke => []

/-- The command record each mock drawing method pushes, exactly as in the
`canvas` mock of `generateWrappedCode` (ide.js) and `getCanvasMockCode`
(canvas-bridge.js): arguments are stored verbatim, and the current
`fillStyle` / `strokeStyle` / `font` / `lineWidth` of the mock are captured
where the method's literal includes them. -/
def pushCommand (cs : MockCanvasState) : CanvasMethod → CanvasCommand
  | .fillRect x y w h =>
      { cmd := .fillRect, args := [x, y, w, h], style := some cs.fillStyle }
  | .strokeRect x y w h =>
      { cmd := .strokeRect, args := [x, y, w, h], style := some cs.strokeStyle,
        lw := some cs.lineWidth }
  | .clearRect x y w h =>
      { cmd := .clearRect, args := [x, y, w, h] }
  | .fillText t x y =>
      { cmd := .fillText, args := [t, x, y], style := some cs.fillStyle,
        font := some cs.font }
  | .strokeText t x y =>
      { cmd := .strokeText, args := [t, x, y], style := some cs.strokeStyle,
        font := some cs.font }
  | .beginPath => { cmd := .beginPath }
  | .closePath => { cmd := .closePath }
  | .moveTo x y => { cmd := .moveTo, args := [x, y] }
  | .lineTo x y => { cmd := .lineTo, args := [x, y] }
  | .arc x y r s e => { cmd := .arc, args := [x, y, r, s, e] }
  | .rect x y w h => { cmd := .rect, args := [x, y, w, h] }
  | .fill => { cmd := .fill, style := some cs.fillStyle }
  | .stroke => { cmd := .stroke, style := some cs.strokeStyle, lw := some cs.lineWidth }

/-- A straight-line guest program over the mocked sandbox API: each step
performs one mocked call or property assignment and continues, and the
program ends by returning a value (`ret`, with `ret .undef` for a body
without an explicit result) or by throwing (`throwJS e`, where `e` is the
thrown value's printable description `String(e)`). Callbacks handed to
`requestAnimationFrame`, `setTimeout` and `onKeyDown` are themselves guest
programs. -/
inductive GuestProg where
  | ret (v : JSVal)
  | throwJS (e : String)
  | consoleCall (lvl : LogLevel) (args : List JSVal) (k : GuestProg)
  | canvasCall (m : CanvasMethod) (k : GuestProg)
  | setFillStyle (s : String) (k : GuestProg)
  | setStrokeStyle (s : String) (k : GuestProg)
  | setFont (s : String) (k : GuestProg)
  | setLineWidth (n : Int) (k : GuestProg)
  | raf (cb : GuestProg) (k : GuestProg)
  | setTimeoutCall (cb : GuestProg) (delay : Int) (k : GuestProg)
  | setOnKeyDown (h : GuestProg) (k : GuestProg)
deriving DecidableEq

/-- One pending timer, as pushed by the `setTimeout` mock of
`generateWrappedCode`: `{cb, delay, time: Date.now()}`. -/
structure Timer where
  cb : GuestProg
  delay : Int
  time : Int
deriving DecidableEq

/-- The interpreter-side persistent state the bridge touches: the global
accumulators `__logs` and `__canvasCommands`, the persistent globals
`__animCallback`, `__timeouts` and `onKeyDown`, the style state of the
`canvas` mock object callbacks close over, and the sandbox's current
`Date.now()` reading (constant within one synchronous turn). -/
structure SandboxState where
  logs : List JSVal := []
  canvasCommands : List CanvasCommand := []
  animCallback : Option GuestProg := none
  timeouts : List Timer := []
  onKeyDown : Option GuestProg := none
  canvasState : MockCanvasState := {}
  now : Int := 0
deriving DecidableEq

/-- How a console mock encodes one call into the entry it pushes onto the
log accumulator. -/
def ConsoleEnc : Type := LogLevel → List JSVal → JSVal

/-- The console mock of `generateWrappedCode` in ide.js: pushes a plain
string — the joined arguments, prefixed with `"WARN: "` or `"ERROR: "` for
`warn` / `error`. -/
def ideEnc : ConsoleEnc := fun lvl args =>
  match lvl with
  | .log => .str (joinArgs args)
  | .warn => .str ("WARN: " ++ joinArgs args)
  | .error => .str ("ERROR: " ++ joinArgs args)

/-- The console mock of `getConsoleMockCode` in canvas-bridge.js: pushes
the record `{type: <severity>, msg: <joined args>}`. -/
def bridgeEnc : ConsoleEnc := fun lvl args =>
  .obj [("type", lvl.tag), ("msg", joinArgs args)]

/-- Does a `JSVal` have the `{type: "log"|"warn"|"error", msg}` log-record
shape of the wire format? -/
def isLogRecord : JSVal → Bool
  | .obj [("type", t), ("msg", _)] => t = "log" ∨ t = "warn" ∨ t = "error"
  | _ => false

/-- Run a guest program against the sandbox state: each mocked call mutates
the state exactly as the injected mock code does, and the run ends with the
returned value or the thrown description. -/
def runProg (enc : ConsoleEnc) : GuestProg → SandboxState → SandboxState × Except String JSVal
  | .ret v, st => (st, .ok v)
  | .throwJS e, st => (st, .error e)
  | .consoleCall lvl args k, st =>
      runProg enc k { st with logs := st.logs ++ [enc lvl args] }
  | .canvasCall m k, st =>
      runProg enc k
        { st with canvasCommands := st.canvasCommands ++ [pushCommand st.canvasState m] }
  | .setFillStyle s k, st =>
      runProg enc k { st with canvasState := { st.canvasState with fillStyle := s } }
  | .setStrokeStyle s k, st =>
      runProg enc k { st with canvasState := { st.canvasState with strokeStyle := s } }
  | .setFont s k, st =>
      runProg enc k { st with canvasState := { st.canvasState with font := s } }
  | .setLineWidth n k, st =>
      runProg enc k { st with canvasState := { st.canvasState with lineWidth := n } }
  | .raf cb k, st =>
      runProg enc k { st with animCallback := some cb }
  | .setTimeoutCall cb d k, st =>
      runProg enc k { st with timeouts := st.timeouts ++ [⟨cb, d, st.now⟩] }
  | .setOnKeyDown h k, st =>
      runProg enc k { st with onKeyDown := some h }

/-- The console calls a guest program performs, in order. Because guest
programs are straight-line and `throwJS` is a terminator, every
`consoleCall` node of the program executes. -/
def consoleCalls : GuestProg → List (LogLevel × List JSVal)
  | .ret _ => []
  | .throwJS _ => []
  | .consoleCall lvl args k => (lvl, args) :: consoleCalls k
  | .canvasCall _ k => consoleCalls k
  | .setFillStyle _ k => consoleCalls k
  | .setStrokeStyle _ k => consoleCalls k
  | .setFont _ k => consoleCalls k
  | .setLineWidth _ k => consoleCalls k
  | .raf _ k => consoleCalls k
  | .setTimeoutCall _ _ k => consoleCalls k
  | .setOnKeyDown _ k => consoleCalls k

/-- The canvas commands a guest program pushes, in order, starting from a
given mock style state. -/
def executedCommands (cs : MockCanvasState) : GuestProg → List CanvasCommand
  | .ret _ => []
  | .throwJS _ => []
  | .consoleCall _ _ k => executedCommands cs k
  | .canvasCall m k => pushCommand cs m :: executedCommands cs k
  | .setFillStyle s k => executedCommands { cs with fillStyle := s } k
  | .setStrokeStyle s k => executedCommands { cs with strokeStyle := s } k
  | .setFont s k => executedCommands { cs with font := s } k
  | .setLineWidth n k => executedCommands { cs with lineWidth := n } k
  | .raf _ k => executedCommands cs k
  | .setTimeoutCall _ _ k => executedCommands cs k
  | .setOnKeyDown _ k => executedCommands cs k

/-- The outcome of a guest program (returned value or thrown description),
which is independent of the sandbox state. -/
def runOutcome : GuestProg → Except String JSVal
  | .ret v => .ok v
  | .throwJS e => .error e
  | .consoleCall _ _ k => runOutcome k
  | .canvasCall _ k => runOutcome k
  | .setFillStyle _ k => runOutcome k
  | .setStrokeStyle _ k => runOutcome k
  | .setFont _ k => runOutcome k
  | .setLineWidth _ k => runOutcome k
  | .raf _ k => runOutcome k
  | .setTimeoutCall _ _ k => runOutcome k
  | .setOnKeyDown _ k => runOutcome k

/-- `true` when a guest program registers no animation continuation and no
timer. -/
def registersNothing : GuestProg → Bool
  | .ret _ => true
  | .throwJS _ => true
  | .consoleCall _ _ k => registersNothing k
  | .canvasCall _ k => registersNothing k
  | .setFillStyle _ k => registersNothing k
  | .setStrokeStyle _ k => registersNothing k
  | .setFont _ k => registersNothing k
  | .setLineWidth _ k => registersNothing k
  | .raf _ _ => false
  | .setTimeoutCall _ _ _ => false
  | .setOnKeyDown _ k => registersNothing k

/-- `true` when a guest program never assigns `onKeyDown`. -/
def setsNoKeyHandler : GuestProg → Bool
  | .ret _ => true
  | .throwJS _ => true
  | .consoleCall _ _ k => setsNoKeyHandler k
  | .canvasCall _ k => setsNoKeyHandler k
  | .setFillStyle _ k => setsNoKeyHandler k
  | .setStrokeStyle _ k => setsNoKeyHandler k
  | .setFont _ k => setsNoKeyHandler k
  | .setLineWidth _ k => setsNoKeyHandler k
  | .raf _ k => setsNoKeyHandler k
  | .setTimeoutCall _ _ k => setsNoKeyHandler k
  | .setOnKeyDown _ _ => false

/-- The envelope returned by one turn, mirroring the object the wrapped
code serializes; `Option` fields model presence of the JSON key (the error
variant carries only `logs`, `canvas` and `error`). `result := some .nullV`
models `result: null`. -/
structure TurnResult where
  logs : List JSVal := []
  canvas : List CanvasCommand := []
  result : Option JSVal := none
  error : Option String := none
  hasAnim : Option Bool := none
  hasTimeout : Option Bool := none
  hasKeyHandler : Option Bool := none
deriving DecidableEq

/-- The turn envelope of `generateWrappedCode` (ide.js): reset the global
accumulators and build a fresh `canvas` mock, run the guest code inside the
exception boundary, then on success report the accumulators, the result
(`undefined` coerced to `null`) and the pending-work flags and clear the
accumulators; on a throw report the accumulators with `error: String(e)`
and clear the accumulators. -/
def runWrappedTurn (prog : GuestProg) (st : SandboxState) : SandboxState × TurnResult :=
  let st0 : SandboxState := { st with logs := [], canvasCommands := [], canvasState := {} }
  match runProg ideEnc prog st0 with
  | (st1, .ok v) =>
      ({ st1 with logs := [], canvasCommands := [] },
       { logs := st1.logs, canvas := st1.canvasCommands,
         result := some (if v = .undef then .nullV else v),
         hasAnim := some st1.animCallback.isSome,
         hasTimeout := some (decide (st1.timeouts ≠ [])),
         hasKeyHandler := some st1.onKeyDown.isSome })
  | (st1, .error e) =>
      ({ st1 with logs := [], canvasCommands := [] },
       { logs := st1.logs, canvas := st1.canvasCommands, error := some e })

/-- The turn envelope of `wrapUserCode` (canvas-bridge.js): every mock and
accumulator is a turn-local variable, so the run starts from empty
accumulators, no callback, no timers and no key handler; the success
variant reports `hasAnim`, `hasTimeouts` (modelled by the `hasTimeout`
field) and `hasKeyHandler`, and the error variant reports the accumulators
with `error: String(e)`. -/
def runWrappedTurnBridge (prog : GuestProg) (st : SandboxState) : SandboxState × TurnResult :=
  let st0 : SandboxState :=
    { st with
      logs := [], canvasCommands := [], canvasState := ({} : MockCanvasState),
      animCallback := none, timeouts := [], onKeyDown := none }
  match runProg bridgeEnc prog st0 with
  | (st1, .ok v) =>
      (st1,
       { logs := st1.logs, canvas := st1.canvasCommands,
         result := some (if v = .undef then .nullV else v),
         hasAnim := some st1.animCallback.isSome,
         hasTimeout := some (decide (st1.timeouts ≠ [])),
         hasKeyHandler := some st1.onKeyDown.isSome })
  | (st1, .error e) =>
      (st1,
       { logs := st1.logs, canvas := st1.canvasCommands, error := some e })

/-- A timer is due on a frame when its elapsed wait reaches its delay:
`now - t.time >= t.delay` in `runFrame`. -/
def isDue (now : Int) (t : Timer) : Bool := now - t.time ≥ t.delay

/-- Outcome of the frame's timer loop: either the loop finished (with the
state, the surviving `pending` list, the continuation flag and the trace of
timers that fired, in firing order), or a fired callback threw, which
aborts the frame before `__timeouts` is reassigned. -/
inductive LoopOut where
  | done (st : SandboxState) (pending : List Timer) (cont : Bool) (fired : List Timer)
  | thrown (st : SandboxState) (e : String) (fired : List Timer)
deriving DecidableEq

/-- The timer loop of `runFrame` (ide.js): iterate by index over the live
`globalThis.__timeouts` array (which fired callbacks may extend), firing
each due timer and collecting the others into `pending`. `fuel` bounds the
iteration count; `none` means the fuel ran out (the source loop would still
be running). -/
def timerLoop (now : Int) : Nat → SandboxState → Nat → List Timer → Bool → List Timer →
    Option LoopOut
  | 0, _, _, _, _, _ => none
  | fuel + 1, st, i, pending, cont, fired =>
    if h : i < st.timeouts.length then
      let t := st.timeouts.get ⟨i, h⟩
      if isDue now t then
        match runProg ideEnc t.cb st with
        | (st', .ok _) => timerLoop now fuel st' (i + 1) pending true (fired ++ [t])
        | (st', .error e) => some (.thrown st' e (fired ++ [t]))
      else
        timerLoop now fuel st (i + 1) (pending ++ [t]) cont fired
    else
      some (.done st pending cont fired)

/-- The result object a completed frame turn serializes. -/
structure FrameResult where
  logs : List JSVal
  canvas : List CanvasCommand
  cont : Bool
deriving DecidableEq

/-- Running the registered animation callback in the frame code of
`runFrame` (ide.js): the slot is nulled first, the callback runs, and
`cont` is set to `true` merely because a callback ran; a throw propagates
(`.error`). -/
def animRun (st0 : SandboxState) (cb : GuestProg) : SandboxState × Except String Bool :=
  match runProg ideEnc cb { st0 with animCallback := none } with
  | (st1, .ok _) => (st1, .ok true)
  | (st1, .error e) => (st1, .error e)

/-- The animation phase of the frame code of `runFrame` (ide.js): run the
registered callback if there is one. -/
def animPhase (st0 : SandboxState) : SandboxState × Except String Bool :=
  match st0.animCallback with
  | some cb => animRun st0 cb
  | none => (st0, .ok false)

/-- The tail of the frame code of `runFrame` (ide.js): run the timer loop,
reassign `__timeouts` to the survivors, and serialize the frame result
with `cont = cont || __animCallback !== null || __timeouts.length > 0`.
A callback throw aborts before the reassignment. -/
def frameAssemble (now : Int) (fuel : Nat) (st1 : SandboxState) (cont0 : Bool) :
    Option (SandboxState × Except String FrameResult × List Timer) :=
  match timerLoop now fuel st1 0 [] cont0 [] with
  | none => none
  | some (.thrown st2 e fired) => some (st2, .error e, fired)
  | some (.done st2 pending cont1 fired) =>
      let st3 : SandboxState := { st2 with timeouts := pending }
      let c : Bool := cont1 || st3.animCallback.isSome || decide (st3.timeouts ≠ [])
      some (st3, .ok { logs := st3.logs, canvas := st3.canvasCommands, cont := c }, fired)

/-- One continuation turn: the frame code of `runFrame` (ide.js). Clears
the global accumulators at the start of the frame (not at its end), runs
the animation phase, then the timer loop. A throw from a callback escapes
the frame code (there is no exception boundary); it is reported here as
the `.error` case, together with the trace of timers that fired before the
abort. -/
def runFrameTurn (fuel : Nat) (st : SandboxState) :
    Option (SandboxState × Except String FrameResult × List Timer) :=
  match animPhase { st with logs := [], canvasCommands := [] } with
  | (st1, .error e) => some (st1, .error e, [])
  | (st1, .ok cont0) => frameAssemble st.now fuel st1 cont0

/-- Host-side scheduler state: the sandbox it drives, whether a frame tick
is currently scheduled (`animationId !== null`, i.e. ContinuationScheduled),
and whether the document key listener is installed. -/
structure HostState where
  sandbox : SandboxState := {}
  animationId : Bool := false
  keyHandlerHost : Bool := false
deriving DecidableEq

/-- `executeCode` (ide.js): cancel any pending frame tick, reset
`__animCallback` and `__timeouts` in the interpreter, dispatch the wrapped
turn, then schedule a frame tick exactly when the result reports
`hasAnim || hasTimeout`, and install the key listener when it reports
`hasKeyHandler` (the listener is never removed here). -/
def executeCode (prog : GuestProg) (h : HostState) : HostState × TurnResult :=
  let cleared : SandboxState := { h.sandbox with animCallback := none, timeouts := [] }
  let r := runWrappedTurn prog cleared
  ({ sandbox := r.1,
     animationId := r.2.hasAnim.getD false || r.2.hasTimeout.getD false,
     keyHandlerHost := h.keyHandlerHost || r.2.hasKeyHandler.getD false },
   r.2)

/-- One resolved host frame tick: `runFrame` (ide.js) host side. On a
completed frame, schedule another tick exactly when the frame reported
`cont`; when the frame code threw, the catch logs the error and schedules
nothing. -/
def hostTick (frameFuel : Nat) (h : HostState) : Option (HostState × Option FrameResult) :=
  match runFrameTurn frameFuel h.sandbox with
  | none => none
  | some (st', .ok fr, _) => some ({ h with sandbox := st', animationId := fr.cont }, some fr)
  | some (st', .error _, _) => some ({ h with sandbox := st', animationId := false }, none)

/-- Drive the scheduler after a run: deliver frame ticks while one is
scheduled, and count the frame turns issued until the scheduler is Idle.
`none` when the fuel (either bound) ran out first. -/
def driveTicks (frameFuel : Nat) : Nat → HostState → Option (Nat × HostState)
  | 0, h => if h.animationId then none else some (0, h)
  | fuel + 1, h =>
    if h.animationId then
      match hostTick frameFuel h with
      | none => none
      | some (h', _) =>
        match driveTicks frameFuel fuel h' with
        | none => none
        | some (n, h'') => some (n + 1, h'')
    else
      some (0, h)

/-- A recognized key event reaching the key relay (`setupKeyHandler` in
ide.js): when the document listener is installed, the synthesized one-line
turn invokes `globalThis.onKeyDown` if it is a function, mutating the
sandbox; otherwise nothing runs. -/
def keyTurn (h : HostState) : HostState :=
  if h.keyHandlerHost then
    match h.sandbox.onKeyDown with
    | some hd => { h with sandbox := (runProg ideEnc hd h.sandbox).1 }
    | none => h
  else
    h

/-- The real drawing context's state as the replay engine touches it. -/
structure Ctx where
  fillStyle : String := "#000"
  strokeStyle : String := "#000"
  font : String := "10px sans-serif"
  lineWidth : Int := 1
deriving DecidableEq

/-- The style application of the replay engine (`executeCanvasCommands` in
ide.js and `executeCommands` in canvas-bridge.js, identical): a truthy
`style` is assigned to both `fillStyle` and `strokeStyle`, a truthy `font`
to `font`, a truthy `lw` to `lineWidth`; falsy values (absent field, empty
string, zero) are skipped. -/
def applyStyle (ctx : Ctx) (c : CanvasCommand) : Ctx :=
  let ctx1 := match c.style with
    | some s => if s ≠ "" then { ctx with fillStyle := s, strokeStyle := s } else ctx
    | none => ctx
  let ctx2 := match c.font with
    | some f => if f ≠ "" then { ctx1 with font := f } else ctx1
    | none => ctx1
  match c.lw with
  | some w => if w ≠ 0 then { ctx2 with lineWidth := w } else ctx2
  | none => ctx2

/-- One replayed command: the context state in force when its geometry
operation executed, and the command itself. -/
structure ReplayStep where
  ctx : Ctx
  cmd : CanvasCommand
deriving DecidableEq

/-- The command replay engine: apply each command of one turn's batch in
order — styles first, then the geometry call — returning the final context
and the trace of geometry executions in the order they were performed. -/
def replayCommands : Ctx → List CanvasCommand → Ctx × List ReplayStep
  | ctx, [] => (ctx, [])
  | ctx, c :: cs =>
      let ctx' := applyStyle ctx c
      let rest := replayCommands ctx' cs
      (rest.1, ⟨ctx', c⟩ :: rest.2)

/-- The timers a guest program registers, in order: one
`{cb, delay, time: now}` record per `setTimeout` call. -/
def registeredTimers (now : Int) : GuestProg → List Timer
  | .ret _ => []
  | .throwJS _ => []
  | .consoleCall _ _ k => registeredTimers now k
  | .canvasCall _ k => registeredTimers now k
  | .setFillStyle _ k => registeredTimers now k
  | .setStrokeStyle _ k => registeredTimers now k
  | .setFont _ k => registeredTimers now k
  | .setLineWidth _ k => registeredTimers now k
  | .raf _ k => registeredTimers now k
  | .setTimeoutCall cb d k => ⟨cb, d, now⟩ :: registeredTimers now k
  | .setOnKeyDown _ k => registeredTimers now k

/-- `true` when a guest program returns normally (its outcome is `.ok`). -/
def runOk (p : GuestProg) : Bool :=
  match runOutcome p with
  | .ok _ => true
  | .error _ => false

/-- Modelled from the spec: the evaluation of the guest text `"2 + 2"` by
the interpreter itself (the MicroQuickJS engine, which is outside `src/`;
only its wrapper and callers are present). Per §1 and Scenario 1 of the
spec, evaluating `"2 + 2"` yields the value 4 with no side effects, so the
guest program is `ret (num 4)`. -/
def twoPlusTwo : GuestProg := .ret (.num 4)

theorem runProg_now (enc : ConsoleEnc) (p : GuestProg) :
    ∀ st : SandboxState, ((runProg enc p st).1).now = st.now := by
  induction p <;> intro st <;> simp [runProg, *]

theorem runProg_logs (enc : ConsoleEnc) (p : GuestProg) :
    ∀ st : SandboxState,
      ((runProg enc p st).1).logs = st.logs ++ (consoleCalls p).map (fun la => enc la.1 la.2) := by
  induction p <;> intro st <;> simp [runProg, consoleCalls, *]

theorem runProg_canvas (enc : ConsoleEnc) (p : GuestProg) :
    ∀ st : SandboxState,
      ((runProg enc p st).1).canvasCommands =
        st.canvasCommands ++ executedCommands st.canvasState p := by
  induction p <;> intro st <;> simp [runProg, executedCommands, *]

theorem runProg_timeouts (enc : ConsoleEnc) (p : GuestProg) :
    ∀ st : SandboxState,
      ((runProg enc p st).1).timeouts = st.timeouts ++ registeredTimers st.now p := by
  induction p <;> intro st <;> simp [runProg, registeredTimers, *]

theorem runProg_snd (enc : ConsoleEnc) (p : GuestProg) :
    ∀ st : SandboxState, (runProg enc p st).2 = runOutcome p := by
  induction p <;> intro st <;> simp [runProg, runOutcome, *]

theorem runProg_anim_of_registersNothing (enc : ConsoleEnc) (p : GuestProg)
    (hp : registersNothing p = true) :
    ∀ st : SandboxState, ((runProg enc p st).1).animCallback = st.animCallback := by
  induction p <;> intro st <;> simp_all [runProg, registersNothing]

theorem registeredTimers_of_registersNothing (now : Int) (p : GuestProg)
    (hp : registersNothing p = true) : registeredTimers now p = [] := by
  induction p <;> simp_all [registeredTimers, registersNothing]

theorem runProg_onKeyDown_of_setsNoKeyHandler (enc : ConsoleEnc) (p : GuestProg)
    (hp : setsNoKeyHandler p = true) :
    ∀ st : SandboxState, ((runProg enc p st).1).onKeyDown = st.onKeyDown := by
  induction p <;> intro st <;> simp_all [runProg, setsNoKeyHandler]

/-- Characterization of a completed timer loop: the live timeout array only
grows at its end, every entry from position `i` on is examined exactly
once, in index order; the due ones make up the firing trace and the others
make up the surviving `pending` list, and the continuation flag is set as
soon as anything fired. -/
theorem timerLoop_done (now : Int) :
    ∀ (fuel : Nat) (st : SandboxState) (i : Nat) (pending fired : List Timer) (cont : Bool)
      (stF : SandboxState) (pendF firedF : List Timer) (contF : Bool),
      timerLoop now fuel st i pending cont fired =
        some (.done stF pendF contF firedF) →
      (∃ new, stF.timeouts = st.timeouts ++ new) ∧
      pendF = pending ++ (stF.timeouts.drop i).filter (fun t => !(isDue now t)) ∧
      firedF = fired ++ (stF.timeouts.drop i).filter (fun t => isDue now t) ∧
      contF = (cont || (stF.timeouts.drop i).any (fun t => isDue now t)) := by
  intro fuel
  induction fuel with
  | zero =>
    intro st i pending fired cont stF pendF firedF contF h
    simp [timerLoop] at h
  | succ fuel ih =>
    intro st i pending fired cont stF pendF firedF contF h
    rw [timerLoop] at h
    by_cases hlen : i < st.timeouts.length
    · rw [dif_pos hlen] at h
      by_cases hdue : isDue now (st.timeouts.get ⟨i, hlen⟩)
      · rw [if_pos hdue] at h
        simp only [List.get_eq_getElem] at hdue
        rcases hE : runProg ideEnc (st.timeouts.get ⟨i, hlen⟩).cb st with ⟨st', out⟩
        rw [hE] at h
        cases out with
        | error e => simp at h
        | ok v =>
          obtain ⟨⟨new₂, hF⟩, hpend, hfired, hcont⟩ := ih st' (i + 1) pending (fired ++ [st.timeouts.get ⟨i, hlen⟩]) true stF pendF firedF contF h
          have hst' : st'.timeouts = st.timeouts ++ registeredTimers st.now (st.timeouts.get ⟨i, hlen⟩).cb := by
            have := runProg_timeouts ideEnc (st.timeouts.get ⟨i, hlen⟩).cb st
            rw [hE] at this
            exact this
          have hpre : stF.timeouts = st.timeouts ++ (registeredTimers st.now (st.timeouts.get ⟨i, hlen⟩).cb ++ new₂) := by
            rw [hF, hst', List.append_assoc]
          have hiF : i < stF.timeouts.length := by
            rw [hpre, List.length_append]
            omega
          have hgetF : stF.timeouts[i] = st.timeouts.get ⟨i, hlen⟩ := by
            have h2 : stF.timeouts.get ⟨i, hiF⟩ = st.timeouts.get ⟨i, hlen⟩ := by
              simp only [List.get_eq_getElem, hpre]
              exact List.getElem_append_left hlen
            simpa using h2
          have hdrop : stF.timeouts.drop i = st.timeouts.get ⟨i, hlen⟩ :: stF.timeouts.drop (i + 1) := by
            rw [List.drop_eq_getElem_cons hiF, hgetF]
          refine ⟨⟨registeredTimers st.now (st.timeouts.get ⟨i, hlen⟩).cb ++ new₂, hpre⟩, ?_, ?_, ?_⟩
          · rw [hdrop, List.filter_cons]
            simp [hdue, hpend]
          · rw [hdrop, List.filter_cons]
            simp [hdue, hfired]
          · rw [hdrop, List.any_cons]
            simp [hdue, hcont]
      · rw [if_neg hdue] at h
        simp only [List.get_eq_getElem] at hdue
        obtain ⟨⟨new₂, hF⟩, hpend, hfired, hcont⟩ := ih st (i + 1) (pending ++ [st.timeouts.get ⟨i, hlen⟩]) fired cont stF pendF firedF contF h
        have hiF : i < stF.timeouts.length := by
          rw [hF, List.length_append]
          omega
        have hgetF : stF.timeouts[i] = st.timeouts.get ⟨i, hlen⟩ := by
          have h2 : stF.timeouts.get ⟨i, hiF⟩ = st.timeouts.get ⟨i, hlen⟩ := by
            simp only [List.get_eq_getElem, hF]
            exact List.getElem_append_left hlen
          simpa using h2
        have hdrop : stF.timeouts.drop i = st.timeouts.get ⟨i, hlen⟩ :: stF.timeouts.drop (i + 1) := by
          rw [List.drop_eq_getElem_cons hiF, hgetF]
        refine ⟨⟨new₂, hF⟩, ?_, ?_, ?_⟩
        · rw [hdrop, List.filter_cons]
          simp [hdue, hpend]
        · rw [hdrop, List.filter_cons]
          simp [hdue, hfired]
        · rw [hdrop, List.any_cons]
          simp [hdue, hcont]
    · rw [dif_neg hlen] at h
      obtain ⟨hst, hpend, hcont, hfired⟩ := LoopOut.done.inj (Option.some.inj h)
      subst hst hpend hcont hfired
      have hdrop : st.timeouts.drop i = [] :=
        List.drop_eq_nil_of_le (by omega)
      simp [hdrop]


theorem animPhase_none (st0 : SandboxState) (h : st0.animCallback = none) :
    animPhase st0 = (st0, .ok false) := by
  unfold animPhase
  rw [h]

theorem animPhase_some (st0 : SandboxState) (cb : GuestProg)
    (h : st0.animCallback = some cb) :
    animPhase st0 = animRun st0 cb := by
  unfold animPhase
  rw [h]

theorem animRun_ok (st0 st1 : SandboxState) (cb : GuestProg) (v : JSVal)
    (hE : runProg ideEnc cb { st0 with animCallback := none } = (st1, .ok v)) :
    animRun st0 cb = (st1, .ok true) := by
  unfold animRun
  rw [hE]

theorem animRun_error (st0 st1 : SandboxState) (cb : GuestProg) (e : String)
    (hE : runProg ideEnc cb { st0 with animCallback := none } = (st1, .error e)) :
    animRun st0 cb = (st1, .error e) := by
  unfold animRun
  rw [hE]

theorem animPhase_some_ok (st0 st1 : SandboxState) (cb : GuestProg) (v : JSVal)
    (h : st0.animCallback = some cb)
    (hE : runProg ideEnc cb { st0 with animCallback := none } = (st1, .ok v)) :
    animPhase st0 = (st1, .ok true) := by
  rw [animPhase_some st0 cb h, animRun_ok st0 st1 cb v hE]

theorem frameAssemble_diverge (now : Int) (fuel : Nat) (st1 : SandboxState) (cont0 : Bool)
    (hT : timerLoop now fuel st1 0 [] cont0 [] = none) :
    frameAssemble now fuel st1 cont0 = none := by
  unfold frameAssemble
  rw [hT]

theorem frameAssemble_thrown (now : Int) (fuel : Nat) (st1 : SandboxState) (cont0 : Bool)
    (st2 : SandboxState) (e : String) (fired : List Timer)
    (hT : timerLoop now fuel st1 0 [] cont0 [] = some (.thrown st2 e fired)) :
    frameAssemble now fuel st1 cont0 = some (st2, .error e, fired) := by
  unfold frameAssemble
  rw [hT]

theorem frameAssemble_done (now : Int) (fuel : Nat) (st1 : SandboxState) (cont0 : Bool)
    (st2 : SandboxState) (pending fired : List Timer) (cont1 : Bool)
    (hT : timerLoop now fuel st1 0 [] cont0 [] = some (.done st2 pending cont1 fired)) :
    frameAssemble now fuel st1 cont0 =
      some ({ st2 with timeouts := pending },
            .ok { logs := st2.logs, canvas := st2.canvasCommands,
                  cont := cont1 || st2.animCallback.isSome || decide (pending ≠ []) },
            fired) := by
  unfold frameAssemble
  rw [hT]

theorem runFrameTurn_ok_phase (fuel : Nat) (st st1 : SandboxState) (cont0 : Bool)
    (hP : animPhase { st with logs := [], canvasCommands := [] } = (st1, .ok cont0)) :
    runFrameTurn fuel st = frameAssemble st.now fuel st1 cont0 := by
  unfold runFrameTurn
  rw [hP]

theorem runFrameTurn_error_phase (fuel : Nat) (st st1 : SandboxState) (e : String)
    (hP : animPhase { st with logs := [], canvasCommands := [] } = (st1, .error e)) :
    runFrameTurn fuel st = some (st1, .error e, []) := by
  unfold runFrameTurn
  rw [hP]

/-- The animation phase only appends to the timer queue (the callback's
`setTimeout` calls append; nothing removes). -/
theorem animPhase_timeouts (st0 st1 : SandboxState) (cont0 : Bool)
    (hP : animPhase st0 = (st1, .ok cont0)) :
    ∃ new, st1.timeouts = st0.timeouts ++ new := by
  cases hA : st0.animCallback with
  | none =>
    rw [animPhase_none st0 hA] at hP
    simp only [Prod.mk.injEq] at hP
    obtain ⟨h1, _⟩ := hP
    exact ⟨[], by simp [← h1]⟩
  | some cb =>
    rw [animPhase_some st0 cb hA] at hP
    rcases hE : runProg ideEnc cb { st0 with animCallback := none } with ⟨st1', out⟩
    cases out with
    | ok v =>
      rw [animRun_ok st0 st1' cb v hE] at hP
      simp only [Prod.mk.injEq] at hP
      obtain ⟨h1, _⟩ := hP
      subst h1
      have h2 := runProg_timeouts ideEnc cb { st0 with animCallback := none }
      rw [hE] at h2
      exact ⟨registeredTimers st0.now cb, h2⟩
    | error e =>
      rw [animRun_error st0 st1' cb e hE] at hP
      simp at hP

/-- A completed (non-throwing) frame turn splits the timers it saw into the
firing trace and the surviving queue: the timers pending at the start of
the turn (`st.timeouts`), followed by whatever the callbacks newly
registered during the turn, are partitioned by due-ness, preserving
order. -/
theorem runFrameTurn_timers (fuel : Nat) (st st' : SandboxState) (fr : FrameResult)
    (fired : List Timer)
    (h : runFrameTurn fuel st = some (st', .ok fr, fired)) :
    ∃ new : List Timer,
      fired = st.timeouts.filter (fun t => isDue st.now t) ++
        new.filter (fun t => isDue st.now t) ∧
      st'.timeouts = st.timeouts.filter (fun t => !(isDue st.now t)) ++
        new.filter (fun t => !(isDue st.now t)) := by
  rcases hP : animPhase { st with logs := [], canvasCommands := [] } with ⟨st1, out⟩
  cases out with
  | error e =>
    rw [runFrameTurn_error_phase fuel st st1 e hP] at h
    simp at h
  | ok cont0 =>
    rw [runFrameTurn_ok_phase fuel st st1 cont0 hP] at h
    obtain ⟨new1, h1⟩ := animPhase_timeouts _ st1 cont0 hP
    simp only at h1
    rcases hT : timerLoop st.now fuel st1 0 [] cont0 [] with _ | lo
    · rw [frameAssemble_diverge st.now fuel st1 cont0 hT] at h
      simp at h
    · cases lo with
      | thrown st2 e fired2 =>
        rw [frameAssemble_thrown st.now fuel st1 cont0 st2 e fired2 hT] at h
        simp at h
      | done st2 pending cont1 fired2 =>
        rw [frameAssemble_done st.now fuel st1 cont0 st2 pending fired2 cont1 hT] at h
        simp only [Option.some.injEq, Prod.mk.injEq, Except.ok.injEq] at h
        obtain ⟨hst', _, hfired⟩ := h
        obtain ⟨⟨m, hm⟩, hpend, hfd, _⟩ :=
          timerLoop_done st.now fuel st1 0 [] [] cont0 st2 pending fired2 cont1 hT
        refine ⟨new1 ++ m, ?_, ?_⟩
        · rw [← hfired, hfd, List.drop_zero, hm, h1]
          simp [List.filter_append]
        · rw [← hst']
          simp only
          rw [hpend, List.drop_zero, hm, h1]
          simp [List.filter_append]

/-- A frame turn whose registered callback returns normally and registers
neither a continuation nor a timer, starting with an empty timer queue:
the callback runs, yet the frame still reports `cont = true` (the source
sets `cont` merely because a callback fired), leaving no continuation and
no timers behind. -/
theorem runFrameTurn_anim_simple (fuel : Nat) (st : SandboxState) (cb : GuestProg)
    (hcb : st.animCallback = some cb) (hreg : registersNothing cb = true)
    (hok : runOk cb = true) (hto : st.timeouts = []) :
    ∃ st', runFrameTurn (fuel + 1) st =
        some (st', .ok ⟨st'.logs, st'.canvasCommands, true⟩, []) ∧
      st'.animCallback = none ∧ st'.timeouts = [] := by
  rcases hE : runProg ideEnc cb { st with logs := [], canvasCommands := [], animCallback := none }
    with ⟨st1, out⟩
  have hout : out = runOutcome cb := by
    have h2 := runProg_snd ideEnc cb { st with logs := [], canvasCommands := [], animCallback := none }
    rw [hE] at h2
    exact h2
  cases hO : runOutcome cb with
  | error e =>
    exfalso
    simp [runOk, hO] at hok
  | ok v =>
    rw [hO] at hout
    subst hout
    have hanim1 : st1.animCallback = none := by
      have := runProg_anim_of_registersNothing ideEnc cb hreg
        { st with logs := [], canvasCommands := [], animCallback := none }
      rw [hE] at this
      exact this
    have hto1 : st1.timeouts = [] := by
      have := runProg_timeouts ideEnc cb
        { st with logs := [], canvasCommands := [], animCallback := none }
      rw [hE] at this
      simp only at this
      rw [registeredTimers_of_registersNothing _ cb hreg, hto] at this
      simpa using this
    have hP : animPhase { st with logs := [], canvasCommands := [] } = (st1, .ok true) :=
      animPhase_some_ok _ st1 cb v (by simp [hcb]) hE
    rw [runFrameTurn_ok_phase (fuel + 1) st st1 true hP]
    have hT : timerLoop st.now (fuel + 1) st1 0 [] true [] =
        some (.done st1 [] true []) := by
      rw [timerLoop]
      rw [dif_neg (by simp [hto1])]
    rw [frameAssemble_done st.now (fuel + 1) st1 true st1 [] [] true hT]
    refine ⟨{ st1 with timeouts := [] }, ?_, by simp [hanim1], by simp⟩
    simp

/-- A frame turn starting with no registered continuation and no pending
timers does nothing and reports `cont = false`. -/
theorem runFrameTurn_idle (fuel : Nat) (st : SandboxState)
    (hcb : st.animCallback = none) (hto : st.timeouts = []) :
    runFrameTurn (fuel + 1) st =
      some ({ st with logs := [], canvasCommands := [], timeouts := [] },
            .ok ⟨[], [], false⟩, []) := by
  have hP : animPhase { st with logs := [], canvasCommands := [] } =
      ({ st with logs := [], canvasCommands := [] }, .ok false) :=
    animPhase_none _ (by simp [hcb])
  rw [runFrameTurn_ok_phase (fuel + 1) st _ false hP]
  have hT : timerLoop st.now (fuel + 1) { st with logs := [], canvasCommands := [] } 0 [] false [] =
      some (.done { st with logs := [], canvasCommands := [] } [] false []) := by
    rw [timerLoop]
    rw [dif_neg (by simp [hto])]
  rw [frameAssemble_done st.now (fuel + 1) _ false _ [] [] false hT]
  simp [hcb]

theorem hostTick_ok (frameFuel : Nat) (h : HostState) (st' : SandboxState) (fr : FrameResult)
    (tr : List Timer)
    (hF : runFrameTurn frameFuel h.sandbox = some (st', .ok fr, tr)) :
    hostTick frameFuel h = some ({ h with sandbox := st', animationId := fr.cont }, some fr) := by
  unfold hostTick
  rw [hF]

theorem driveTicks_stop (frameFuel fuel : Nat) (h : HostState) (hA : h.animationId = false) :
    driveTicks frameFuel fuel h = some (0, h) := by
  cases fuel <;> simp [driveTicks, hA]

theorem driveTicks_step (frameFuel fuel : Nat) (h h' h'' : HostState) (n : Nat)
    (r : Option FrameResult)
    (hA : h.animationId = true) (hT : hostTick frameFuel h = some (h', r))
    (hD : driveTicks frameFuel fuel h' = some (n, h'')) :
    driveTicks frameFuel (fuel + 1) h = some (n + 1, h'') := by
  rw [driveTicks, if_pos (by simp [hA]), hT]
  simp only [hD]

theorem runWrappedTurn_eq_ok (p : GuestProg) (st st1 : SandboxState) (v : JSVal)
    (hE : runProg ideEnc p { st with logs := [], canvasCommands := [], canvasState := {} } =
      (st1, .ok v)) :
    runWrappedTurn p st =
      ({ st1 with logs := [], canvasCommands := [] },
       { logs := st1.logs, canvas := st1.canvasCommands,
         result := some (if v = .undef then .nullV else v),
         hasAnim := some st1.animCallback.isSome,
         hasTimeout := some (decide (st1.timeouts ≠ [])),
         hasKeyHandler := some st1.onKeyDown.isSome }) := by
  simp only [runWrappedTurn]
  rw [hE]

theorem runWrappedTurn_eq_error (p : GuestProg) (st st1 : SandboxState) (e : String)
    (hE : runProg ideEnc p { st with logs := [], canvasCommands := [], canvasState := {} } =
      (st1, .error e)) :
    runWrappedTurn p st =
      ({ st1 with logs := [], canvasCommands := [] },
       { logs := st1.logs, canvas := st1.canvasCommands, error := some e }) := by
  simp only [runWrappedTurn]
  rw [hE]

theorem runWrappedTurnBridge_eq_ok (p : GuestProg) (st st1 : SandboxState) (v : JSVal)
    (hE : runProg bridgeEnc p
        { st with
          logs := [], canvasCommands := [], canvasState := ({} : MockCanvasState),
          animCallback := none, timeouts := [], onKeyDown := none } = (st1, .ok v)) :
    runWrappedTurnBridge p st =
      (st1,
       { logs := st1.logs, canvas := st1.canvasCommands,
         result := some (if v = .undef then .nullV else v),
         hasAnim := some st1.animCallback.isSome,
         hasTimeout := some (decide (st1.timeouts ≠ [])),
         hasKeyHandler := some st1.onKeyDown.isSome }) := by
  simp only [runWrappedTurnBridge]
  rw [hE]

theorem runWrappedTurnBridge_eq_error (p : GuestProg) (st st1 : SandboxState) (e : String)
    (hE : runProg bridgeEnc p
        { st with
          logs := [], canvasCommands := [], canvasState := ({} : MockCanvasState),
          animCallback := none, timeouts := [], onKeyDown := none } = (st1, .error e)) :
    runWrappedTurnBridge p st =
      (st1, { logs := st1.logs, canvas := st1.canvasCommands, error := some e }) := by
  simp only [runWrappedTurnBridge]
  rw [hE]

/-- The Turn Result's log list is exactly the image of the program's
console calls under the IDE console mock's encoding, whether the program
returns or throws. -/
theorem runWrappedTurn_logs (p : GuestProg) (st : SandboxState) :
    (runWrappedTurn p st).2.logs =
      (consoleCalls p).map (fun la => ideEnc la.1 la.2) := by
  rcases hE : runProg ideEnc p { st with logs := [], canvasCommands := [], canvasState := {} }
    with ⟨st1, out⟩
  have hl := runProg_logs ideEnc p { st with logs := [], canvasCommands := [], canvasState := {} }
  rw [hE] at hl
  simp only at hl
  cases out with
  | ok v => rw [runWrappedTurn_eq_ok p st st1 v hE]; simpa using hl
  | error e => rw [runWrappedTurn_eq_error p st st1 e hE]; simpa using hl

/-- The bridge envelope's log list is the image of the program's console
calls under the bridge console mock's encoding. -/
theorem runWrappedTurnBridge_logs (p : GuestProg) (st : SandboxState) :
    (runWrappedTurnBridge p st).2.logs =
      (consoleCalls p).map (fun la => bridgeEnc la.1 la.2) := by
  rcases hE : runProg bridgeEnc p
      { st with
        logs := [], canvasCommands := [], canvasState := ({} : MockCanvasState),
        animCallback := none, timeouts := [], onKeyDown := none }
    with ⟨st1, out⟩
  have hl := runProg_logs bridgeEnc p
    { st with
      logs := [], canvasCommands := [], canvasState := ({} : MockCanvasState),
      animCallback := none, timeouts := [], onKeyDown := none }
  rw [hE] at hl
  simp only at hl
  cases out with
  | ok v => rw [runWrappedTurnBridge_eq_ok p st st1 v hE]; simpa using hl
  | error e => rw [runWrappedTurnBridge_eq_error p st st1 e hE]; simpa using hl

theorem runWrappedTurn_onKeyDown (p : GuestProg) (st : SandboxState)
    (hp : setsNoKeyHandler p = true) :
    (runWrappedTurn p st).1.onKeyDown = st.onKeyDown := by
  rcases hE : runProg ideEnc p { st with logs := [], canvasCommands := [], canvasState := {} }
    with ⟨st1, out⟩
  have hk := runProg_onKeyDown_of_setsNoKeyHandler ideEnc p hp
    { st with logs := [], canvasCommands := [], canvasState := {} }
  rw [hE] at hk
  simp only at hk
  cases out with
  | ok v => rw [runWrappedTurn_eq_ok p st st1 v hE]; simpa using hk
  | error e => rw [runWrappedTurn_eq_error p st st1 e hE]; simpa using hk

theorem applyStyle_style (ctx : Ctx) (c : CanvasCommand) (s : String)
    (hs : c.style = some s) (hne : s ≠ "") :
    (applyStyle ctx c).fillStyle = s ∧ (applyStyle ctx c).strokeStyle = s := by
  cases hf : c.font <;> cases hw : c.lw <;>
    simp [applyStyle, hs, hf, hw, hne] <;> split_ifs <;> simp

theorem applyStyle_style_empty (ctx : Ctx) (c : CanvasCommand)
    (hs : c.style = some "") :
    (applyStyle ctx c).fillStyle = ctx.fillStyle ∧
      (applyStyle ctx c).strokeStyle = ctx.strokeStyle := by
  cases hf : c.font <;> cases hw : c.lw <;>
    simp [applyStyle, hs, hf, hw] <;> split_ifs <;> simp

theorem applyStyle_font (ctx : Ctx) (c : CanvasCommand) (f : String)
    (hf : c.font = some f) (hne : f ≠ "") :
    (applyStyle ctx c).font = f := by
  cases hs : c.style <;> cases hw : c.lw <;>
    simp [applyStyle, hs, hf, hw, hne] <;> split_ifs <;> simp

theorem applyStyle_font_empty (ctx : Ctx) (c : CanvasCommand)
    (hf : c.font = some "") :
    (applyStyle ctx c).font = ctx.font := by
  cases hs : c.style <;> cases hw : c.lw <;>
    simp [applyStyle, hs, hf, hw] <;> first
      | rfl
      | (split_ifs <;> simp)

theorem applyStyle_lw (ctx : Ctx) (c : CanvasCommand) (w : Int)
    (hw : c.lw = some w) (hne : w ≠ 0) :
    (applyStyle ctx c).lineWidth = w := by
  cases hs : c.style <;> cases hf : c.font <;>
    simp [applyStyle, hs, hf, hw, hne]

theorem applyStyle_lw_zero (ctx : Ctx) (c : CanvasCommand)
    (hw : c.lw = some 0) :
    (applyStyle ctx c).lineWidth = ctx.lineWidth := by
  cases hs : c.style <;> cases hf : c.font <;>
    simp [applyStyle, hs, hf, hw] <;> split_ifs <;> simp

theorem replayCommands_cmds (cmds : List CanvasCommand) :
    ∀ ctx : Ctx, ((replayCommands ctx cmds).2.map ReplayStep.cmd) = cmds := by
  induction cmds <;> intro ctx <;> simp [replayCommands, *]

theorem replayCommands_mem (cmds : List CanvasCommand) :
    ∀ (ctx : Ctx) (step : ReplayStep), step ∈ (replayCommands ctx cmds).2 →
      ∃ ctxPrev, step.ctx = applyStyle ctxPrev step.cmd := by
  induction cmds with
  | nil => intro ctx step hm; simp [replayCommands] at hm
  | cons c cs ih =>
    intro ctx step hm
    simp only [replayCommands, List.mem_cons] at hm
    rcases hm with h | h
    · exact ⟨ctx, by rw [h]⟩
    · exact ih _ _ h

/-- C1 (counterexample): for the guest program that registers an animation
continuation doing nothing further (`raf (ret undefined); ret undefined`),
the scheduler issues two additional turns, not one: the continuation turn
reports `cont = true` merely because a callback fired, so one further
(empty) frame turn is issued before the scheduler is Idle. -/
theorem claim_C1_counterexample :
    (executeCode (.raf (.ret .undef) (.ret .undef)) {}).2.hasAnim = some true ∧
    (driveTicks 1 5 (executeCode (.raf (.ret .undef) (.ret .undef)) {}).1).map Prod.fst =
      some 2 ∧
    some (2 : Nat) ≠ some 1 := by decide

/-- C1 (amended): after an initial turn that registered an animation
continuation (and no timer), whose continuation callback returns normally
and registers no further continuation and no timer, the Turn Scheduler
issues exactly two additional turns — the continuation turn (which reports
`cont = true` because a callback fired) and one further empty frame turn —
and then returns to Idle, scheduling no further frame. -/
theorem claim_C1_amended (cb : GuestProg) (h : HostState) (fuel : Nat)
    (hA : h.animationId = true) (hcb : h.sandbox.animCallback = some cb)
    (hto : h.sandbox.timeouts = []) (hreg : registersNothing cb = true)
    (hok : runOk cb = true) :
    ∃ hF : HostState, driveTicks 1 (fuel + 2) h = some (2, hF) ∧ hF.animationId = false := by
  obtain ⟨st', hF1, hanim', hto'⟩ := runFrameTurn_anim_simple 0 h.sandbox cb hcb hreg hok hto
  have hTick1 := hostTick_ok 1 h st' ⟨st'.logs, st'.canvasCommands, true⟩ [] hF1
  have hF2 := runFrameTurn_idle 0 st' hanim' hto'
  have hTick2 := hostTick_ok 1 { h with sandbox := st', animationId := true }
    { st' with logs := [], canvasCommands := [], timeouts := [] } ⟨[], [], false⟩ [] hF2
  have hStop := driveTicks_stop 1 fuel
    { h with
      sandbox := { st' with logs := [], canvasCommands := [], timeouts := [] },
      animationId := false } rfl
  have hD1 := driveTicks_step 1 fuel _ _ _ 0 _ rfl hTick2 hStop
  have hD2 := driveTicks_step 1 (fuel + 1) h _ _ 1 _ hA hTick1 hD1
  exact ⟨_, hD2, rfl⟩

/-- C1 (witness): the amended claim at the concrete program
`raf (ret undefined); ret undefined` run from the initial host state. -/
theorem claim_C1_witness :
    ∃ hF : HostState,
      driveTicks 1 5 (executeCode (.raf (.ret .undef) (.ret .undef)) {}).1 = some (2, hF) ∧
      hF.animationId = false :=
  claim_C1_amended (.ret .undef) (executeCode (.raf (.ret .undef) (.ret .undef)) {}).1 3
    (by decide) (by decide) (by decide) (by decide) (by decide)

/-- C2 (counterexample): a new run request does not clear the guest's
key-handler state — after `executeCode` of a program installing nothing,
the pre-request `onKeyDown` is still installed, and a subsequent key event
fires it (its log entry appears). -/
theorem claim_C2_counterexample :
    ((executeCode (.ret .undef)
        { sandbox := { onKeyDown := some (.consoleCall .log [.str "stale"] (.ret .undef)) },
          animationId := true, keyHandlerHost := true }).1.sandbox.onKeyDown ≠ none) ∧
    (keyTurn (executeCode (.ret .undef)
        { sandbox := { onKeyDown := some (.consoleCall .log [.str "stale"] (.ret .undef)) },
          animationId := true, keyHandlerHost := true }).1).sandbox.logs = [.str "stale"] := by
  decide

/-- C2 (amended): a new run request while a continuation tick is pending
cancels the pending tick and clears the guest's continuation and timer
state before dispatching — the run's entire outcome is independent of the
pre-request tick, continuation and timer state — but it does NOT clear the
key-handler state: when the new program installs no handler, the
pre-request `onKeyDown` remains installed. -/
theorem claim_C2_amended (prog : GuestProg) (h : HostState) (b : Bool)
    (c : Option GuestProg) (ts : List Timer)
    (hk : setsNoKeyHandler prog = true) :
    (executeCode prog
        { h with
          animationId := b,
          sandbox := { h.sandbox with animCallback := c, timeouts := ts } } =
      executeCode prog h) ∧
    (executeCode prog h).1.sandbox.onKeyDown = h.sandbox.onKeyDown := by
  refine ⟨rfl, ?_⟩
  have hK := runWrappedTurn_onKeyDown prog
    { h.sandbox with animCallback := none, timeouts := [] } hk
  simpa [executeCode] using hK

/-- C2 (witness): the amended claim at a concrete state with a pending
tick, a registered continuation and an installed key handler. -/
theorem claim_C2_witness :
    (executeCode (.ret .undef)
        { sandbox :=
            { onKeyDown := some (.ret .undef), animCallback := some (.ret .undef),
              timeouts := [] },
          animationId := true, keyHandlerHost := false } =
      executeCode (.ret .undef) { sandbox := { onKeyDown := some (.ret .undef) } }) ∧
    (executeCode (.ret .undef)
        { sandbox := { onKeyDown := some (.ret .undef) } }).1.sandbox.onKeyDown =
      ({ onKeyDown := some (.ret .undef) } : SandboxState).onKeyDown :=
  claim_C2_amended (.ret .undef) { sandbox := { onKeyDown := some (.ret .undef) } }
    true (some (.ret .undef)) [] rfl

/-- C3 (counterexample): in the IDE envelope, `console.warn("a")` appends
the plain string `"WARN: a"` — not a `{type, msg}` record. -/
theorem claim_C3_counterexample :
    (runWrappedTurn (.consoleCall .warn [.str "a"] (.ret .undef)) {}).2.logs =
      [.str "WARN: a"] ∧
    ((runWrappedTurn (.consoleCall .warn [.str "a"] (.ret .undef)) {}).2.logs.all
      isLogRecord) = false := by
  decide

/-- C3 (amended): each console call appends exactly one log entry whose
message is the arguments stringified and joined with a single space; in
the canvas-bridge envelope the entry is the `{type, msg}` record with
`type` one of log/warn/error, while in the IDE envelope the entry is a
plain string — the message prefixed with `"WARN: "` or `"ERROR: "` for
warn/error — and never a `{type, msg}` record. -/
theorem claim_C3_amended (p : GuestProg) (st : SandboxState) :
    ((runWrappedTurnBridge p st).2.logs =
      (consoleCalls p).map (fun la => bridgeEnc la.1 la.2)) ∧
    ((runWrappedTurn p st).2.logs =
      (consoleCalls p).map (fun la => ideEnc la.1 la.2)) ∧
    (∀ lvl args, bridgeEnc lvl args = .obj [("type", lvl.tag), ("msg", joinArgs args)]) ∧
    (∀ lvl args, isLogRecord (bridgeEnc lvl args) = true) ∧
    (∀ lvl args, isLogRecord (ideEnc lvl args) = false) := by
  refine ⟨runWrappedTurnBridge_logs p st, runWrappedTurn_logs p st,
    fun lvl args => rfl, ?_, ?_⟩
  · intro lvl args
    cases lvl <;> rfl
  · intro lvl args
    cases lvl <;> rfl

/-- C4: a thrown guest program's Turn Result carries the thrown value's
printable description in `error`, preserves every log entry and canvas
command accumulated before the throw (all of the program's console calls
and drawing calls, since a throw ends the program), and exactly one of
`result` / `error` is populated; the envelope always returns a Turn
Result, so the exception never escapes it. -/
theorem claim_C4 (p : GuestProg) (st : SandboxState) :
    (((runWrappedTurn p st).2.error = none ∧
        ((runWrappedTurn p st).2.result).isSome = true) ∨
      (((runWrappedTurn p st).2.error).isSome = true ∧
        (runWrappedTurn p st).2.result = none)) ∧
    (∀ e, runOutcome p = .error e →
      (runWrappedTurn p st).2 =
        { logs := (consoleCalls p).map (fun la => ideEnc la.1 la.2),
          canvas := executedCommands {} p,
          error := some e }) := by
  rcases hE : runProg ideEnc p { st with logs := [], canvasCommands := [], canvasState := {} }
    with ⟨st1, out⟩
  have hsnd := runProg_snd ideEnc p { st with logs := [], canvasCommands := [], canvasState := {} }
  rw [hE] at hsnd
  have hl := runProg_logs ideEnc p { st with logs := [], canvasCommands := [], canvasState := {} }
  rw [hE] at hl
  simp only at hl
  have hc := runProg_canvas ideEnc p { st with logs := [], canvasCommands := [], canvasState := {} }
  rw [hE] at hc
  simp only at hc
  cases out with
  | ok v =>
    rw [runWrappedTurn_eq_ok p st st1 v hE]
    refine ⟨Or.inl (by simp), ?_⟩
    intro e he
    rw [he] at hsnd
    simp at hsnd
  | error e0 =>
    rw [runWrappedTurn_eq_error p st st1 e0 hE]
    refine ⟨Or.inr (by simp), ?_⟩
    intro e he
    rw [he] at hsnd
    have he0 : e0 = e := by
      simpa using hsnd
    subst he0
    simp [hl, hc]

/-- C4 (witness): a program that queues one canvas command and then throws
the string "boom". -/
theorem claim_C4_witness :
    (runWrappedTurn (.canvasCall .beginPath (.throwJS "boom")) {}).2 =
      { logs := [], canvas := [{ cmd := .beginPath }], error := some "boom" } :=
  (claim_C4 (.canvasCall .beginPath (.throwJS "boom")) {}).2 "boom" rfl

/-- C5 (counterexample): with two due pending timers whose first callback
throws, the frame aborts: the second due timer does not fire on that
continuation turn (and the queue reassignment is skipped), so it is false
that every due pending timer fires. -/
theorem claim_C5_counterexample :
    (runFrameTurn 5
        { timeouts := [⟨.throwJS "boom", 0, 0⟩,
                       ⟨.consoleCall .log [] (.ret .undef), 0, 0⟩] }).map
      (fun x => x.2.2) = some [⟨.throwJS "boom", 0, 0⟩] ∧
    isDue 0 ⟨.consoleCall .log [] (.ret .undef), 0, 0⟩ = true ∧
    (⟨.consoleCall .log [] (.ret .undef), 0, 0⟩ : Timer) ∉
      [(⟨.throwJS "boom", 0, 0⟩ : Timer)] := by
  decide

/-- C5 (amended): on a continuation turn that completes without a callback
throwing, the timers involved are exactly the start-pending queue followed
by the list `new` of timers registered during the turn; the firing trace
is their due sublist in order — so every start-pending due timer fires
exactly once, the due ones fire in ascending order of original
registration (before any newly registered due timer) — and the surviving
queue is their not-yet-due sublist in order, with no bound on its
length. -/
theorem claim_C5_amended (fuel : Nat) (st st' : SandboxState) (fr : FrameResult)
    (fired : List Timer)
    (h : runFrameTurn fuel st = some (st', .ok fr, fired)) :
    ∃ new : List Timer,
      fired = st.timeouts.filter (fun t => isDue st.now t) ++
        new.filter (fun t => isDue st.now t) ∧
      st'.timeouts = st.timeouts.filter (fun t => !(isDue st.now t)) ++
        new.filter (fun t => !(isDue st.now t)) :=
  runFrameTurn_timers fuel st st' fr fired h

/-- C5 (witness): a frame with one due timer whose callback does nothing:
it fires, and the queue ends empty. -/
theorem claim_C5_witness :
    ∃ new : List Timer,
      ([⟨.ret .undef, 0, 0⟩] : List Timer) =
        ([⟨.ret .undef, 0, 0⟩] : List Timer).filter (fun t => isDue 0 t) ++
          new.filter (fun t => isDue 0 t) ∧
      ([] : List Timer) =
        ([⟨.ret .undef, 0, 0⟩] : List Timer).filter (fun t => !(isDue 0 t)) ++
          new.filter (fun t => !(isDue 0 t)) :=
  claim_C5_amended 5 { timeouts := [⟨.ret .undef, 0, 0⟩] } {} ⟨[], [], true⟩
    [⟨.ret .undef, 0, 0⟩] (by decide)

/-- C6 (counterexample): a command whose captured snapshot is present but
falsy (the empty style string) is replayed without restoring the snapshot:
the context keeps its previous fill style. -/
theorem claim_C6_counterexample :
    ({ cmd := CmdKind.fill, style := some "" } : CanvasCommand).style.isSome = true ∧
    ((replayCommands {} [{ cmd := CmdKind.fill, style := some "" }]).2.map
      (fun s => s.ctx.fillStyle)) = ["#000"] ∧
    ("#000" : String) ≠ "" := by
  decide

/-- C6 (amended): the replay engine executes exactly the turn's commands,
in the order the guest issued them, with no command from another batch
interleaved; before each geometry operation it restores the command's
captured snapshot fields whenever they are present AND truthy (non-empty
style and font strings, nonzero line width). -/
theorem claim_C6_amended (ctx : Ctx) (cmds : List CanvasCommand) :
    ((replayCommands ctx cmds).2.map ReplayStep.cmd = cmds) ∧
    (∀ step ∈ (replayCommands ctx cmds).2,
      (∀ s, step.cmd.style = some s → s ≠ "" →
        step.ctx.fillStyle = s ∧ step.ctx.strokeStyle = s) ∧
      (∀ f, step.cmd.font = some f → f ≠ "" → step.ctx.font = f) ∧
      (∀ w, step.cmd.lw = some w → w ≠ 0 → step.ctx.lineWidth = w)) := by
  refine ⟨replayCommands_cmds cmds ctx, ?_⟩
  intro step hm
  obtain ⟨ctxPrev, hctx⟩ := replayCommands_mem cmds ctx step hm
  refine ⟨?_, ?_, ?_⟩
  · intro s hs hne
    rw [hctx]
    exact applyStyle_style ctxPrev step.cmd s hs hne
  · intro f hf hne
    rw [hctx]
    exact applyStyle_font ctxPrev step.cmd f hf hne
  · intro w hw hne
    rw [hctx]
    exact applyStyle_lw ctxPrev step.cmd w hw hne

/-- C6 (witness): replaying a single `fill` command with snapshot "#f00"
executes that command with fill style "#f00" in force. -/
theorem claim_C6_witness :
    ((replayCommands {} [{ cmd := CmdKind.fill, style := some "#f00" }]).2.map
      ReplayStep.cmd = [{ cmd := CmdKind.fill, style := some "#f00" }]) ∧
    (⟨applyStyle {} { cmd := CmdKind.fill, style := some "#f00" },
      { cmd := CmdKind.fill, style := some "#f00" }⟩ : ReplayStep).ctx.fillStyle = "#f00" :=
  ⟨(claim_C6_amended {} [{ cmd := CmdKind.fill, style := some "#f00" }]).1,
   (((claim_C6_amended {} [{ cmd := CmdKind.fill, style := some "#f00" }]).2
      ⟨applyStyle {} { cmd := CmdKind.fill, style := some "#f00" },
       { cmd := CmdKind.fill, style := some "#f00" }⟩ (by decide)).1 "#f00" rfl
      (by decide)).1⟩

/-- C7 (counterexample): a continuation turn does not reset the
accumulators at its end — after a frame whose callback logged "x", the
global log accumulator still holds that entry. -/
theorem claim_C7_counterexample :
    (runFrameTurn 5
        { animCallback := some (.consoleCall .log [.str "x"] (.ret .undef)) }).map
      (fun x => x.1.logs) = some [.str "x"] ∧
    ([JSVal.str "x"] : List JSVal) ≠ [] := by
  decide

/-- C7 (amended): initial (wrapped) turns clear the global accumulators at
the end of the turn; continuation (frame) turns clear them at the start of
the turn instead, leaving their own entries behind after the turn — but in
both cases a turn's behaviour, including its serialized result, is
independent of whatever the accumulators held beforehand, so no
accumulated entry ever reaches the next turn's Turn Result. -/
theorem claim_C7_amended :
    (∀ (p : GuestProg) (st : SandboxState),
      (runWrappedTurn p st).1.logs = [] ∧ (runWrappedTurn p st).1.canvasCommands = []) ∧
    (∀ (p : GuestProg) (st : SandboxState),
      runWrappedTurn p st = runWrappedTurn p { st with logs := [], canvasCommands := [] }) ∧
    (∀ (fuel : Nat) (st : SandboxState),
      runFrameTurn fuel st = runFrameTurn fuel { st with logs := [], canvasCommands := [] }) := by
  refine ⟨?_, fun p st => rfl, fun fuel st => rfl⟩
  intro p st
  rcases hE : runProg ideEnc p { st with logs := [], canvasCommands := [], canvasState := {} }
    with ⟨st1, out⟩
  cases out with
  | ok v =>
    rw [runWrappedTurn_eq_ok p st st1 v hE]
    exact ⟨rfl, rfl⟩
  | error e =>
    rw [runWrappedTurn_eq_error p st st1 e hE]
    exact ⟨rfl, rfl⟩

/-- C8 (counterexample): for the guest `"2 + 2"` the serialized result
field holds the raw number 4, not the printable string "4". -/
theorem claim_C8_counterexample :
    (runWrappedTurn twoPlusTwo {}).2.result = some (.num 4) ∧
    (JSVal.num 4 : JSVal) ≠ .str "4" := by
  decide

/-- C8 (amended): for the guest `"2 + 2"` the Turn Result is
`{logs: [], canvas: [], result: 4, hasAnim: false, hasTimeout: false,
hasKeyHandler: false}` — the result field carries the guest's value
unchanged (the wire format carries any JSON value, not only
string-or-null). -/
theorem claim_C8_amended :
    (runWrappedTurn twoPlusTwo {}).2 =
      { logs := [], canvas := [], result := some (.num 4), hasAnim := some false,
        hasTimeout := some false, hasKeyHandler := some false } := by
  decide

/-- C9 (counterexample): the mock stores drawing arguments verbatim — a
guest that passes an object to `fillRect` produces a queued command whose
argument list contains a value that is neither a number nor a string. -/
theorem claim_C9_counterexample :
    ((runWrappedTurn
        (.canvasCall (.fillRect (.obj []) (.num 1) (.num 2) (.num 3)) (.ret .undef))
        {}).2.canvas.all (fun c => c.args.all isNumOrStr)) = false := by
  decide

/-- C9 (amended): every queued command's argument list is exactly the
values the guest passed, uncoerced; consequently its elements are numbers
or strings precisely when the guest passed only numbers or strings — the
invariant holds for well-behaved guests but is not enforced by the
bridge. -/
theorem claim_C9_amended (cs : MockCanvasState) (m : CanvasMethod) :
    (pushCommand cs m).args = methodArgs m ∧
    ((methodArgs m).all isNumOrStr = true →
      (pushCommand cs m).args.all isNumOrStr = true) := by
  cases m <;> simp [pushCommand, methodArgs]

/-- C9 (witness): a `fillRect` call with four numbers stores exactly those
four numbers, all of them numeric. -/
theorem claim_C9_witness :
    (pushCommand {} (.fillRect (.num 1) (.num 2) (.num 3) (.num 4))).args =
      methodArgs (.fillRect (.num 1) (.num 2) (.num 3) (.num 4)) ∧
    (pushCommand {} (.fillRect (.num 1) (.num 2) (.num 3) (.num 4))).args.all
      isNumOrStr = true :=
  ⟨(claim_C9_amended {} (.fillRect (.num 1) (.num 2) (.num 3) (.num 4))).1,
   (claim_C9_amended {} (.fillRect (.num 1) (.num 2) (.num 3) (.num 4))).2 (by decide)⟩

/-- C10: during replay a truthy snapshot is assigned to BOTH the real
context's fillStyle and strokeStyle (so a stroke-family command also
overwrites the fill style for later commands in the batch), and a falsy
snapshot field — empty style string, empty font string, lineWidth 0 — is
not applied at all. -/
theorem claim_C10 (ctx : Ctx) (c : CanvasCommand) :
    (∀ s, c.style = some s → s ≠ "" →
      (applyStyle ctx c).fillStyle = s ∧ (applyStyle ctx c).strokeStyle = s) ∧
    (c.style = some "" →
      (applyStyle ctx c).fillStyle = ctx.fillStyle ∧
        (applyStyle ctx c).strokeStyle = ctx.strokeStyle) ∧
    (c.font = some "" → (applyStyle ctx c).font = ctx.font) ∧
    (c.lw = some 0 → (applyStyle ctx c).lineWidth = ctx.lineWidth) :=
  ⟨fun s hs hne => applyStyle_style ctx c s hs hne,
   fun hs => applyStyle_style_empty ctx c hs,
   fun hf => applyStyle_font_empty ctx c hf,
   fun hw => applyStyle_lw_zero ctx c hw⟩

/-- C10 (witness): a `stroke` command's snapshot "#0f0" lands on both
styles, and a zero lineWidth snapshot is skipped. -/
theorem claim_C10_witness :
    ((applyStyle {} { cmd := CmdKind.stroke, style := some "#0f0", lw := some 3 }).fillStyle =
        "#0f0" ∧
      (applyStyle {} { cmd := CmdKind.stroke, style := some "#0f0", lw := some 3 }).strokeStyle =
        "#0f0") ∧
    (applyStyle {} { cmd := CmdKind.stroke, style := some "", lw := some 0 }).lineWidth =
      ({} : Ctx).lineWidth :=
  ⟨(claim_C10 {} { cmd := CmdKind.stroke, style := some "#0f0", lw := some 3 }).1 "#0f0"
      rfl (by decide),
   (claim_C10 {} { cmd := CmdKind.stroke, style := some "", lw := some 0 }).2.2.2 rfl⟩

end MQJS
